import Mathlib

/-!
Verification of the AudioGraph AviSynth filter sources: the sample-format
conversion engine (convertaudio.cpp, shipped inside the build file next to
the makefile text) and the audioframe cache (audgraph.cpp).

Modelling conventions.

* Byte buffers are `List ℕ` (one entry per byte, each below 256); input
  buffers are total functions `ℕ → ℕ` giving the byte at an offset.
* C `float` arithmetic is modelled by exact rational arithmetic.  Every
  float operation on the verified paths is exact in IEEE binary32:
  multiplications and divisions by powers of two, integer values of
  magnitude at most 2^24, and additions of 0.5 to values of magnitude
  below 2^15 incur no rounding, so the idealisation agrees with the
  compiled x86 code on all inputs the claims quantify over.
* C signed integer arithmetic is modelled on `ℤ`: truncating division is
  `Int.tdiv`, arithmetic right shift (MSVC semantics for signed `>>`) is
  `Int.shiftRight`, and a store into a 16-bit (resp. 8-bit) location is
  `% 65536` (resp. `% 256`, with `Int.emod`, which is nonnegative).
* Bitwise OR whose operands occupy disjoint byte ranges is written as
  addition: in `convert24To16` the low operand is a byte below 256 and
  the high operand is a multiple of 256, and in `convert8To16` the low
  eight bits of `(in[i]-128) << 8` are zero, so `x | y` equals `x + y`
  in both places.
* The buffers are on a little-endian x86 target (the makefiles pass
  /machine:x64 and /machine:x86), so a `signed short*` read of a `char`
  buffer sees `b0 + 256*b1` reinterpreted in two's complement.
-/

/-! ## Sample converter: saturation (convertaudio.cpp) -/

/-- Truncation toward zero, the semantics of a C cast from float to a signed
integer type (used for `(int)(n+0.5f)` and `(short)(n+0.5f)`). -/
def truncQ (x : ℚ) : ℤ := if 0 ≤ x then ⌊x⌋ else ⌈x⌉

/-- ConvertAudio::Saturate_int8: `if (n <= -128.0f) return -128; if (n >= 127.0f)
return 127; return (int)(n+0.5f);`. -/
def Saturate_int8 (n : ℚ) : ℤ :=
  if n ≤ -128 then -128
  else if 127 ≤ n then 127
  else truncQ (n + 1/2)

/-- ConvertAudio::Saturate_int16: bounds -32768 and 32767, then
`(short)(n+0.5f)`. -/
def Saturate_int16 (n : ℚ) : ℤ :=
  if n ≤ -32768 then -32768
  else if 32767 ≤ n then 32767
  else truncQ (n + 1/2)

/-- ConvertAudio::Saturate_int24: bounds `-(1<<23)` and `(1<<23)-1`, then
`(int)(n+0.5f)`. -/
def Saturate_int24 (n : ℚ) : ℤ :=
  if n ≤ -8388608 then -8388608
  else if 8388607 ≤ n then 8388607
  else truncQ (n + 1/2)

/-- ConvertAudio::Saturate_int32: the bounds are written `-2147483648.0f`
(returning the bit pattern 0x80000000, i.e. -2^31) and `2147483647.0f`
(returning 0x7fffffff).  The literal constants of the source are used here;
2147483647 is not exactly representable in binary32 (the compiled constant
is 2^31), but the two thresholds classify every binary32 input identically,
because no float lies strictly between 2147483647 and 2^31. -/
def Saturate_int32 (n : ℚ) : ℤ :=
  if n ≤ -2147483648 then -2147483648
  else if 2147483647 ≤ n then 2147483647
  else truncQ (n + 1/2)

/-! ## Sample converter: per-sample conversions -/

/-- Two's complement reinterpretation of a 16-bit pattern as a signed value
(a `signed short*` read on x86). -/
def signed16 (v : ℕ) : ℤ := if v < 32768 then (v : ℤ) else (v : ℤ) - 65536

/-- Two's complement reinterpretation of a 32-bit pattern as a signed value
(a `signed int` holding assembled bytes). -/
def signed32 (v : ℕ) : ℤ := if v < 2147483648 then (v : ℤ) else (v : ℤ) - 4294967296

/-- convertToFloat SAMPLE_INT8 case: `(samples[i]-128) * float(1.0/128)` on an
unsigned byte. -/
def toFloat8 (b : ℕ) : ℚ := ((b : ℚ) - 128) * (1 / 128)

/-- convertToFloat SAMPLE_INT16 case: `samples[i] * float(1.0/32768)` on a
signed short read from two little-endian bytes. -/
def toFloat16 (b0 b1 : ℕ) : ℚ := (signed16 (b0 + 256 * b1) : ℚ) * (1 / 32768)

/-- convertToFloat SAMPLE_INT24 case: `tval = (s[3i]<<8)|(s[3i+1]<<16)|(s[3i+2]<<24)`
assembled as a signed int (the three ORed operands occupy disjoint byte
lanes, so OR is addition), times `float(1.0/(unsigned)(1<<31))`. -/
def toFloat24 (b0 b1 b2 : ℕ) : ℚ :=
  (signed32 (256 * b0 + 65536 * b1 + 16777216 * b2) : ℚ) * (1 / 2147483648)

/-- convertToFloat SAMPLE_INT32 case: a signed int read from four
little-endian bytes, times `float(1.0/(unsigned)(1<<31))`. -/
def toFloat32i (b0 b1 b2 b3 : ℕ) : ℚ :=
  (signed32 (b0 + 256 * b1 + 65536 * b2 + 16777216 * b3) : ℚ) * (1 / 2147483648)

/-- convertFromFloat SAMPLE_INT8 case for one sample:
`samples[i] = (unsigned char)Saturate_int8(inbuf[i] * 128.0f) + 128` stored into
an unsigned char; the cast and store make the result `(sat + 128) mod 256`. -/
def fromFloat8 (f : ℚ) : ℕ := ((Saturate_int8 (f * 128) + 128) % 256).toNat

/-- convertFromFloat SAMPLE_INT16 case for one sample:
`samples[i] = Saturate_int16(inbuf[i] * 32768.0f)` stored as a little-endian
signed short, given here as its two memory bytes. -/
def fromFloat16 (f : ℚ) : List ℕ :=
  let v := (Saturate_int16 (f * 32768) % 65536).toNat
  [v % 256, v / 256]

/-- convertFromFloat SAMPLE_INT24 case for one sample: `tval =
Saturate_int24(inbuf[i] * (float)(1<<23))`, then the three masked shifts
`tval & 0xff`, `(tval & 0xff00) >> 8`, `(tval & 0xff0000) >> 16` written as
bytes; on the two's complement pattern these are the three low bytes. -/
def fromFloat24 (f : ℚ) : List ℕ :=
  let t := (Saturate_int24 (f * 8388608) % 16777216).toNat
  [t % 256, t / 256 % 256, t / 65536]

/-- convertFromFloat SAMPLE_INT32 case for one sample:
`samples[i] = Saturate_int32(inbuf[i] * (float)((unsigned)(1<<31)))` stored as a
little-endian signed int, given as its four memory bytes. -/
def fromFloat32i (f : ℚ) : List ℕ :=
  let t := (Saturate_int32 (f * 2147483648) % 4294967296).toNat
  [t % 256, t / 256 % 256, t / 65536 % 256, t / 16777216]

/-! ## Sample converter: buffer-level conversions

`SampleFormat` is the closed set of SAMPLE_* flags the switch statements
recognise; `other` stands for any value hitting the `default:` label. -/

inductive SampleFormat where
  | int8
  | int16
  | int24
  | int32
  | float32
  | other
deriving DecidableEq

/-- ConvertAudio::convertToFloat: dispatch on the sample type and convert
`count` samples into a float buffer.  The SAMPLE_FLOAT branch copies SFLOAT
values; the IEEE bit-level decoding is abstracted by the parameter
`decodeSFLOAT` (no claim exercises that branch).  The `default:` branch
writes `0.0f` for every sample. -/
def convertToFloat (decodeSFLOAT : ℕ → ℕ → ℕ → ℕ → ℚ) (inbuf : ℕ → ℕ)
    (fmt : SampleFormat) (count : ℕ) : List ℚ :=
  match fmt with
  | .int8 => (List.range count).map (fun i => toFloat8 (inbuf i))
  | .int16 => (List.range count).map (fun i => toFloat16 (inbuf (2*i)) (inbuf (2*i+1)))
  | .int24 => (List.range count).map (fun i =>
      toFloat24 (inbuf (3*i)) (inbuf (3*i+1)) (inbuf (3*i+2)))
  | .int32 => (List.range count).map (fun i =>
      toFloat32i (inbuf (4*i)) (inbuf (4*i+1)) (inbuf (4*i+2)) (inbuf (4*i+3)))
  | .float32 => (List.range count).map (fun i =>
      decodeSFLOAT (inbuf (4*i)) (inbuf (4*i+1)) (inbuf (4*i+2)) (inbuf (4*i+3)))
  | .other => (List.range count).map (fun _ => (0 : ℚ))

/-- ConvertAudio::convertFromFloat: dispatch on the sample type and write
`count` converted samples over the front of the destination buffer `dst`
(the bytes past the written region keep their old contents).  The
SAMPLE_FLOAT branch copies SFLOAT values, abstracted by `encodeSFLOAT`.
The `default:` branch is empty: the destination is returned unchanged. -/
def convertFromFloat (encodeSFLOAT : ℚ → List ℕ) (inbuf : ℕ → ℚ)
    (fmt : SampleFormat) (count : ℕ) (dst : List ℕ) : List ℕ :=
  match fmt with
  | .int8 => ((List.range count).map (fun i => fromFloat8 (inbuf i))) ++ dst.drop count
  | .int16 => ((List.range count).flatMap (fun i => fromFloat16 (inbuf i))) ++ dst.drop (2*count)
  | .int24 => ((List.range count).flatMap (fun i => fromFloat24 (inbuf i))) ++ dst.drop (3*count)
  | .int32 => ((List.range count).flatMap (fun i => fromFloat32i (inbuf i))) ++ dst.drop (4*count)
  | .float32 => ((List.range count).flatMap (fun i => encodeSFLOAT (inbuf i))) ++ dst.drop (4*count)
  | .other => dst

/-! ## Sample converter: fast paths -/

/-- One sample of `convert24To16`: `out[i] = in[i*3+1] | (in[i*3+2] << 8)`
stored as an unsigned short (two little-endian bytes; the OR operands are a
byte and a multiple of 256, so OR is addition). -/
def fast24To16sample (b1 b2 : ℕ) : List ℕ :=
  let v := (b1 + 256 * b2) % 65536
  [v % 256, v / 256]

/-- convert24To16: the Int24→Int16 fast path, dropping the low byte of each
3-byte sample. -/
def convert24To16 (inbuf : ℕ → ℕ) (count : ℕ) (dst : List ℕ) : List ℕ :=
  ((List.range count).flatMap (fun i => fast24To16sample (inbuf (3*i+1)) (inbuf (3*i+2))))
    ++ dst.drop (2*count)

/-- One sample of `convert16To8`: `out[i] = (in[i] >> 8) + 128` on a signed
short (arithmetic shift), stored into an unsigned char. -/
def fast16To8sample (b0 b1 : ℕ) : ℕ :=
  ((Int.shiftRight (signed16 (b0 + 256 * b1)) 8 + 128) % 256).toNat

/-- convert16To8: the Int16→Int8 fast path. -/
def convert16To8 (inbuf : ℕ → ℕ) (count : ℕ) (dst : List ℕ) : List ℕ :=
  ((List.range count).map (fun i => fast16To8sample (inbuf (2*i)) (inbuf (2*i+1))))
    ++ dst.drop count

/-- One sample of `convert8To16`: `out[i] = ((in[i]-128) << 8) | in[i]` stored
as a signed short.  The shifted operand has zero low byte and `in[i]` is a
byte, so the OR is addition; the 16-bit store is a reduction mod 2^16 of the
two's complement value. -/
def fast8To16sample (b : ℕ) : List ℕ :=
  let v := ((((b : ℤ) - 128) * 256 + b) % 65536).toNat
  [v % 256, v / 256]

/-- convert8To16: the Int8→Int16 fast path. -/
def convert8To16 (inbuf : ℕ → ℕ) (count : ℕ) (dst : List ℕ) : List ℕ :=
  ((List.range count).flatMap (fun i => fast8To16sample (inbuf i))) ++ dst.drop (2*count)

/-- The generic float-intermediate path of ConvertAudio::GetAudio: convert the
input buffer to float with `convertToFloat`, then convert the float buffer to
the destination format with `convertFromFloat` (reading the float scratch
buffer that was just filled). -/
def floatPath (decodeSFLOAT : ℕ → ℕ → ℕ → ℕ → ℚ) (encodeSFLOAT : ℚ → List ℕ)
    (inbuf : ℕ → ℕ) (src dstFmt : SampleFormat) (count : ℕ) (dst : List ℕ) : List ℕ :=
  convertFromFloat encodeSFLOAT
    (fun i => (convertToFloat decodeSFLOAT inbuf src count).getD i 0) dstFmt count dst

/-! ## Arithmetic facts about truncation and saturation -/

theorem ceil_half : ⌈(1/2 : ℚ)⌉ = 1 := by
  rw [Int.ceil_eq_iff]
  norm_num

theorem truncQ_intCast_div (a : ℤ) (d : ℕ) (hd : 0 < d) :
    truncQ ((a : ℚ) / (d : ℚ)) = if 0 ≤ a then a / (d : ℤ) else -((-a) / (d : ℤ)) := by
  have hdq : (0 : ℚ) < (d : ℚ) := by exact_mod_cast hd
  unfold truncQ
  by_cases ha : 0 ≤ a
  · rw [if_pos (by positivity), if_pos ha, Rat.floor_intCast_div_natCast]
  · have ha' : (a : ℚ) < 0 := by exact_mod_cast not_le.mp ha
    rw [if_neg (by simp [not_le]; exact div_neg_of_neg_of_pos ha' hdq), if_neg ha]
    have h2 : ((a : ℚ) / (d : ℚ)) = -(((-a : ℤ) : ℚ) / (d : ℚ)) := by push_cast; ring
    rw [h2, Int.ceil_neg, Rat.floor_intCast_div_natCast]

theorem truncQ_intCast_add_half (k : ℤ) :
    truncQ ((k : ℚ) + 1/2) = if 0 ≤ k then k else k + 1 := by
  unfold truncQ
  by_cases hk : 0 ≤ k
  · have hkq : (0 : ℚ) ≤ (k : ℚ) := by exact_mod_cast hk
    rw [if_pos (by linarith), if_pos hk, add_comm, Int.floor_add_int]
    norm_num
  · have hk' : k ≤ -1 := by omega
    have hkq : (k : ℚ) ≤ -1 := by exact_mod_cast hk'
    rw [if_neg (by intro h; linarith), if_neg hk, add_comm, Int.ceil_add_int, ceil_half]
    ring

theorem truncQ_intCast (k : ℤ) : truncQ ((k : ℚ)) = k := by
  unfold truncQ
  split_ifs <;> simp

theorem truncQ_mem_of (x : ℚ) (lo hi : ℤ) (hlo : lo ≤ 0) (hhi : 0 ≤ hi)
    (h1 : (lo : ℚ) - 1 < x) (h2 : x < (hi : ℚ) + 1) :
    lo ≤ truncQ x ∧ truncQ x ≤ hi := by
  unfold truncQ
  by_cases hx : 0 ≤ x
  · rw [if_pos hx]
    constructor
    · exact le_trans hlo (Int.floor_nonneg.mpr hx)
    · have : ⌊x⌋ < hi + 1 := Int.floor_lt.mpr (by push_cast; linarith)
      omega
  · rw [if_neg hx]
    have hx' : x < 0 := not_le.mp hx
    constructor
    · have : (lo - 1 : ℤ) < ⌈x⌉ := Int.lt_ceil.mpr (by push_cast; linarith)
      omega
    · exact le_trans (Int.ceil_le.mpr (by push_cast; linarith)) hhi

/-! ## Claim C4: saturation policy of convertFromFloat -/

/-- Claim C4 (amended): each integer target clamps with the exact bounds
Int8 [-128,127], Int16 [-32768,32767], Int24 [-2^23,2^23-1],
Int32 [-2^31,2^31-1]; inside the clamp window the conversion adds 0.5 and
truncates toward zero, which is round-half-up (floor of n+0.5) for
n ≥ -1/2 but rounds toward zero (ceiling of n+0.5) for n < -1/2; float 1.0
to Int16 yields 32767 (bytes 255,127), -1.0 yields -32768 (bytes 0,128),
and 2.0 / -2.0 clamp to the same saturated values instead of wrapping. -/
theorem C4_saturation_policy :
    (∀ n : ℚ, -128 ≤ Saturate_int8 n ∧ Saturate_int8 n ≤ 127)
    ∧ (∀ n : ℚ, -32768 ≤ Saturate_int16 n ∧ Saturate_int16 n ≤ 32767)
    ∧ (∀ n : ℚ, -8388608 ≤ Saturate_int24 n ∧ Saturate_int24 n ≤ 8388607)
    ∧ (∀ n : ℚ, -2147483648 ≤ Saturate_int32 n ∧ Saturate_int32 n ≤ 2147483647)
    ∧ (∀ n : ℚ, -1/2 ≤ n → n < 32767 → Saturate_int16 n = ⌊n + 1/2⌋)
    ∧ (∀ n : ℚ, -32768 < n → n < -1/2 → Saturate_int16 n = ⌈n + 1/2⌉)
    ∧ convertFromFloat (fun _ => []) (fun _ => 1) SampleFormat.int16 1 [0, 0] = [255, 127]
    ∧ convertFromFloat (fun _ => []) (fun _ => -1) SampleFormat.int16 1 [0, 0] = [0, 128]
    ∧ convertFromFloat (fun _ => []) (fun _ => 2) SampleFormat.int16 1 [0, 0] = [255, 127]
    ∧ convertFromFloat (fun _ => []) (fun _ => -2) SampleFormat.int16 1 [0, 0] = [0, 128] := by
  refine ⟨?_, ?_, ?_, ?_, ?_, ?_, ?_, ?_, ?_, ?_⟩
  · intro n
    unfold Saturate_int8
    split_ifs with h1 h2
    · exact ⟨le_refl _, by norm_num⟩
    · exact ⟨by norm_num, le_refl _⟩
    · exact truncQ_mem_of _ _ _ (by norm_num) (by norm_num)
        (by push_cast; linarith [not_le.mp h1]) (by push_cast; linarith [not_le.mp h2])
  · intro n
    unfold Saturate_int16
    split_ifs with h1 h2
    · exact ⟨le_refl _, by norm_num⟩
    · exact ⟨by norm_num, le_refl _⟩
    · exact truncQ_mem_of _ _ _ (by norm_num) (by norm_num)
        (by push_cast; linarith [not_le.mp h1]) (by push_cast; linarith [not_le.mp h2])
  · intro n
    unfold Saturate_int24
    split_ifs with h1 h2
    · exact ⟨le_refl _, by norm_num⟩
    · exact ⟨by norm_num, le_refl _⟩
    · exact truncQ_mem_of _ _ _ (by norm_num) (by norm_num)
        (by push_cast; linarith [not_le.mp h1]) (by push_cast; linarith [not_le.mp h2])
  · intro n
    unfold Saturate_int32
    split_ifs with h1 h2
    · exact ⟨le_refl _, by norm_num⟩
    · exact ⟨by norm_num, le_refl _⟩
    · exact truncQ_mem_of _ _ _ (by norm_num) (by norm_num)
        (by push_cast; linarith [not_le.mp h1]) (by push_cast; linarith [not_le.mp h2])
  · intro n h1 h2
    unfold Saturate_int16
    rw [if_neg (by intro h; linarith), if_neg (by intro h; linarith)]
    unfold truncQ
    rw [if_pos (by linarith)]
  · intro n h1 h2
    unfold Saturate_int16
    rw [if_neg (by intro h; linarith), if_neg (by intro h; linarith)]
    unfold truncQ
    rw [if_neg (by intro h; linarith)]
  · norm_num [convertFromFloat, fromFloat16, Saturate_int16]
    decide
  · norm_num [convertFromFloat, fromFloat16, Saturate_int16]
    decide
  · norm_num [convertFromFloat, fromFloat16, Saturate_int16]
    decide
  · norm_num [convertFromFloat, fromFloat16, Saturate_int16]
    decide

/-- Witness for C4_saturation_policy at concrete inputs. -/
theorem C4_saturation_policy_witness :
    (-32768 ≤ Saturate_int16 2000 ∧ Saturate_int16 2000 ≤ 32767)
    ∧ Saturate_int16 (3/2) = ⌊(3/2 : ℚ) + 1/2⌋
    ∧ Saturate_int16 (-3/2) = ⌈(-3/2 : ℚ) + 1/2⌉ :=
  ⟨C4_saturation_policy.2.1 2000,
   C4_saturation_policy.2.2.2.2.1 (3/2) (by norm_num) (by norm_num),
   C4_saturation_policy.2.2.2.2.2.1 (-3/2) (by norm_num) (by norm_num)⟩

/-- Counterexample to C4 as stated: the claim says ties round away from zero,
so converting the float -3/65536 (whose scaled value is -1.5) to Int16 would
have to give -2 (little-endian bytes 254,255); the code gives -1 (bytes
255,255), because `(short)(n+0.5f)` truncates toward zero. -/
theorem C4_counterexample :
    convertFromFloat (fun _ => []) (fun _ => -3/65536) SampleFormat.int16 1 [0, 0] = [255, 255]
    ∧ ([255, 255] : List ℕ) ≠ [254, 255] := by
  constructor
  · have hs : Saturate_int16 ((-3/65536 : ℚ) * 32768) = -1 := by
      have harg : ((-3/65536 : ℚ) * 32768) = -3/2 := by norm_num
      rw [harg]
      unfold Saturate_int16
      rw [if_neg (by norm_num), if_neg (by norm_num)]
      rw [show ((-3/2 : ℚ) + 1/2) = ((-1 : ℤ) : ℚ) from by norm_num, truncQ_intCast]
    have hb : fromFloat16 (-3/65536) = [255, 255] := by
      unfold fromFloat16
      rw [hs]
      decide
    simp [convertFromFloat, hb]
    decide
  · decide

/-! ## Claim C8: unrecognized sample format -/

/-- Claim C8: for a sample format hitting the `default:` label and every
count n, convertToFloat fills all n output floats with 0.0, and
convertFromFloat returns the destination buffer unchanged; both functions
are total, so no error is signaled in either direction. -/
theorem C8_unknown_format_degrades :
    (∀ (decodeSFLOAT : ℕ → ℕ → ℕ → ℕ → ℚ) (inbuf : ℕ → ℕ) (n : ℕ),
        convertToFloat decodeSFLOAT inbuf SampleFormat.other n = List.replicate n 0)
    ∧ (∀ (encodeSFLOAT : ℚ → List ℕ) (inbuf : ℕ → ℚ) (n : ℕ) (dst : List ℕ),
        convertFromFloat encodeSFLOAT inbuf SampleFormat.other n dst = dst) := by
  constructor
  · intro dec inbuf n
    simp [convertToFloat, List.map_const']
  · intro enc inbuf n dst
    rfl

/-! ## Claim C1: fast paths versus the float-intermediate path -/

theorem intShiftRight_eq_ediv_pow (m : ℤ) (n : ℕ) : Int.shiftRight m n = m / ((2 ^ n : ℕ) : ℤ) :=
  Int.shiftRight_eq_div_pow m n

theorem sample24To16_agrees (b0 b1 b2 : ℕ) (h0 : b0 < 128) (h1 : b1 < 256) (h2 : b2 < 128) :
    fast24To16sample b1 b2 = fromFloat16 (toFloat24 b0 b1 b2) := by
  have harg : toFloat24 b0 b1 b2 * 32768 = (((b0 + 256 * b1 + 65536 * b2 : ℕ) : ℤ) : ℚ) / 256 := by
    unfold toFloat24 signed32
    rw [if_pos (by omega)]
    push_cast
    ring
  unfold fromFloat16 fast24To16sample
  rw [harg]
  set s : ℕ := b0 + 256 * b1 + 65536 * b2 with hs
  have hnotlo : ¬ (((s : ℤ) : ℚ) / 256 ≤ -32768) := by
    intro h
    have hpos : (0 : ℚ) ≤ ((s : ℤ) : ℚ) / 256 := by positivity
    linarith
  by_cases hq : b1 + 256 * b2 = 32767
  · have hb1 : b1 = 255 := by omega
    have hb2 : b2 = 127 := by omega
    have hhi : (32767 : ℚ) ≤ ((s : ℤ) : ℚ) / 256 := by
      rw [le_div_iff₀ (by norm_num)]
      have hz : (8388352 : ℤ) ≤ (s : ℤ) := by omega
      exact_mod_cast hz
    unfold Saturate_int16
    rw [if_neg hnotlo, if_pos hhi]
    subst hb1 hb2
    decide
  · have hqlt : b1 + 256 * b2 < 32767 := by omega
    have hhi : ¬ ((32767 : ℚ) ≤ ((s : ℤ) : ℚ) / 256) := by
      rw [not_le, div_lt_iff₀ (by norm_num)]
      have hz : (s : ℤ) < 8388352 := by omega
      exact_mod_cast hz
    unfold Saturate_int16
    rw [if_neg hnotlo, if_neg hhi]
    have hhalf : ((s : ℤ) : ℚ) / 256 + 1/2 = (((s : ℤ) + 128 : ℤ) : ℚ) / ((256 : ℕ) : ℚ) := by
      push_cast
      ring
    rw [hhalf, truncQ_intCast_div _ _ (by norm_num), if_pos (by omega)]
    have hdiv : ((s : ℤ) + 128) / ((256 : ℕ) : ℤ) = (b1 + 256 * b2 : ℕ) := by
      push_cast
      omega
    rw [hdiv]
    have hvm : (((b1 + 256 * b2 : ℕ) : ℤ) % 65536).toNat = b1 + 256 * b2 := by omega
    rw [hvm]
    have e1 : (b1 + 256 * b2) % 65536 = b1 + 256 * b2 := by omega
    rw [e1]

theorem sample16To8_agrees (b0 b1 : ℕ) (h0 : b0 < 128) (h1 : b1 < 128) :
    fast16To8sample b0 b1 = fromFloat8 (toFloat16 b0 b1) := by
  have hv : b0 + 256 * b1 < 32768 := by omega
  have harg : toFloat16 b0 b1 * 128 = (((b0 + 256 * b1 : ℕ) : ℤ) : ℚ) / 256 := by
    unfold toFloat16 signed16
    rw [if_pos hv]
    push_cast
    ring
  unfold fromFloat8 fast16To8sample
  rw [harg]
  unfold signed16
  rw [if_pos hv]
  have hshift : Int.shiftRight ((b0 + 256 * b1 : ℕ) : ℤ) 8 = (b1 : ℤ) := by
    rw [intShiftRight_eq_ediv_pow]
    push_cast
    omega
  rw [hshift]
  set s : ℕ := b0 + 256 * b1 with hs
  have hnotlo : ¬ (((s : ℤ) : ℚ) / 256 ≤ -128) := by
    intro h
    have hpos : (0 : ℚ) ≤ ((s : ℤ) : ℚ) / 256 := by positivity
    linarith
  by_cases hb : b1 = 127
  · have hhi : (127 : ℚ) ≤ ((s : ℤ) : ℚ) / 256 := by
      rw [le_div_iff₀ (by norm_num)]
      have hz : (32512 : ℤ) ≤ (s : ℤ) := by omega
      exact_mod_cast hz
    unfold Saturate_int8
    rw [if_neg hnotlo, if_pos hhi]
    subst hb
    decide
  · have hhi : ¬ ((127 : ℚ) ≤ ((s : ℤ) : ℚ) / 256) := by
      rw [not_le, div_lt_iff₀ (by norm_num)]
      have hz : (s : ℤ) < 32512 := by omega
      exact_mod_cast hz
    unfold Saturate_int8
    rw [if_neg hnotlo, if_neg hhi]
    have hhalf : ((s : ℤ) : ℚ) / 256 + 1/2 = (((s : ℤ) + 128 : ℤ) : ℚ) / ((256 : ℕ) : ℚ) := by
      push_cast
      ring
    rw [hhalf, truncQ_intCast_div _ _ (by norm_num), if_pos (by omega)]
    have hdiv : ((s : ℤ) + 128) / ((256 : ℕ) : ℤ) = (b1 : ℤ) := by
      push_cast
      omega
    rw [hdiv]

theorem sat8to16 (b : ℕ) (hb : b < 256) :
    Saturate_int16 (toFloat8 b * 32768) =
      if b = 0 then -32768 else ((b : ℤ) - 128) * 256 + (if b < 128 then 1 else 0) := by
  have harg : toFloat8 b * 32768 = ((((b : ℤ) - 128) * 256 : ℤ) : ℚ) := by
    unfold toFloat8
    push_cast
    ring
  rw [harg]
  unfold Saturate_int16
  by_cases hb0 : b = 0
  · subst hb0
    rw [if_pos (by norm_num), if_pos rfl]
  · have hlo : ¬ (((((b : ℤ) - 128) * 256 : ℤ) : ℚ) ≤ -32768) := by
      intro h
      have hz : (((b : ℤ) - 128) * 256 : ℤ) ≤ -32768 := by exact_mod_cast h
      omega
    have hhi : ¬ ((32767 : ℚ) ≤ ((((b : ℤ) - 128) * 256 : ℤ) : ℚ)) := by
      intro h
      have hz : (32767 : ℤ) ≤ (((b : ℤ) - 128) * 256 : ℤ) := by exact_mod_cast h
      omega
    rw [if_neg hlo, if_neg hhi, truncQ_intCast_add_half, if_neg hb0]
    split_ifs with h1 h2 h2 <;> omega

theorem sample8To16_iff (b : ℕ) (hb : b < 256) :
    (fast8To16sample b = fromFloat16 (toFloat8 b)) ↔ (b = 0 ∨ b = 1) := by
  unfold fast8To16sample fromFloat16
  rw [sat8to16 b hb]
  by_cases hb0 : b = 0
  · subst hb0
    exact iff_of_true (by decide) (Or.inl rfl)
  · by_cases hb1 : b = 1
    · subst hb1
      exact iff_of_true (by decide) (Or.inr rfl)
    · rw [if_neg hb0]
      refine iff_of_false ?_ (by omega)
      simp only [List.cons.injEq, and_true]
      split_ifs with hbl <;> (intro h; obtain ⟨e1, e2⟩ := h; omega)

theorem convertToFloat_int8 (dec : ℕ → ℕ → ℕ → ℕ → ℚ) (inbuf : ℕ → ℕ) (count : ℕ) :
    convertToFloat dec inbuf SampleFormat.int8 count
      = (List.range count).map (fun i => toFloat8 (inbuf i)) := rfl

theorem convertToFloat_int16 (dec : ℕ → ℕ → ℕ → ℕ → ℚ) (inbuf : ℕ → ℕ) (count : ℕ) :
    convertToFloat dec inbuf SampleFormat.int16 count
      = (List.range count).map (fun i => toFloat16 (inbuf (2*i)) (inbuf (2*i+1))) := rfl

theorem convertToFloat_int24 (dec : ℕ → ℕ → ℕ → ℕ → ℚ) (inbuf : ℕ → ℕ) (count : ℕ) :
    convertToFloat dec inbuf SampleFormat.int24 count
      = (List.range count).map (fun i => toFloat24 (inbuf (3*i)) (inbuf (3*i+1)) (inbuf (3*i+2))) := rfl

theorem convertFromFloat_int8 (enc : ℚ → List ℕ) (inbuf : ℕ → ℚ) (count : ℕ) (dst : List ℕ) :
    convertFromFloat enc inbuf SampleFormat.int8 count dst
      = ((List.range count).map (fun i => fromFloat8 (inbuf i))) ++ dst.drop count := rfl

theorem convertFromFloat_int16 (enc : ℚ → List ℕ) (inbuf : ℕ → ℚ) (count : ℕ) (dst : List ℕ) :
    convertFromFloat enc inbuf SampleFormat.int16 count dst
      = ((List.range count).flatMap (fun i => fromFloat16 (inbuf i))) ++ dst.drop (2*count) := rfl

theorem flatMap_congr_of_mem {α β : Type} {l : List α} {f g : α → List β}
    (h : ∀ a ∈ l, f a = g a) : l.flatMap f = l.flatMap g := by
  induction l with
  | nil => rfl
  | cons x xs ih =>
    simp only [List.flatMap_cons]
    rw [h x (List.mem_cons_self x xs), ih (fun a ha => h a (List.mem_cons_of_mem x ha))]

theorem getD_range_map {α : Type} (f : ℕ → α) (n i : ℕ) (h : i < n) (d : α) :
    ((List.range n).map f).getD i d = f i := by
  rw [List.getD_eq_getElem _ _ (by simpa using h)]
  simp

/-- Claim C1 (amended): the fast paths are not byte-identical to the
float-intermediate path on all in-range samples.  They agree exactly where
truncation coincides with the float path's add-0.5-truncate rounding:
Int24→Int16 agrees on samples whose dropped low byte is below 128 and whose
sign byte is below 128 (non-negative samples with discarded fraction below
one half); Int16→Int8 agrees on samples with both bytes below 128 (again
non-negative with fraction below one half, the saturated top row included);
Int8→Int16 agrees only on the input bytes 0 and 1, because the fast path
replicates the input byte into the low output byte while the float path
leaves it 0 (or 1 after its negative rounding): on all other bytes the two
paths differ. -/
theorem C1_fast_vs_float_path :
    (∀ (decodeSFLOAT : ℕ → ℕ → ℕ → ℕ → ℚ) (encodeSFLOAT : ℚ → List ℕ) (inbuf : ℕ → ℕ)
        (count : ℕ) (dst : List ℕ),
        (∀ i < count, inbuf (3*i) < 128 ∧ inbuf (3*i+1) < 256 ∧ inbuf (3*i+2) < 128) →
        convert24To16 inbuf count dst
          = floatPath decodeSFLOAT encodeSFLOAT inbuf SampleFormat.int24 SampleFormat.int16 count dst)
    ∧ (∀ (decodeSFLOAT : ℕ → ℕ → ℕ → ℕ → ℚ) (encodeSFLOAT : ℚ → List ℕ) (inbuf : ℕ → ℕ)
        (count : ℕ) (dst : List ℕ),
        (∀ i < count, inbuf (2*i) < 128 ∧ inbuf (2*i+1) < 128) →
        convert16To8 inbuf count dst
          = floatPath decodeSFLOAT encodeSFLOAT inbuf SampleFormat.int16 SampleFormat.int8 count dst)
    ∧ (∀ b : ℕ, b < 256 →
        ((fast8To16sample b = fromFloat16 (toFloat8 b)) ↔ (b = 0 ∨ b = 1))) := by
  refine ⟨?_, ?_, ?_⟩
  · intro dec enc inbuf count dst h
    unfold convert24To16 floatPath
    rw [convertFromFloat_int16, convertToFloat_int24]
    congr 1
    apply flatMap_congr_of_mem
    intro i hi
    rw [List.mem_range] at hi
    rw [getD_range_map _ _ _ hi]
    exact sample24To16_agrees (inbuf (3*i)) (inbuf (3*i+1)) (inbuf (3*i+2))
      (h i hi).1 (h i hi).2.1 (h i hi).2.2
  · intro dec enc inbuf count dst h
    unfold convert16To8 floatPath
    rw [convertFromFloat_int8, convertToFloat_int16]
    congr 1
    apply List.map_congr_left
    intro i hi
    rw [List.mem_range] at hi
    rw [getD_range_map _ _ _ hi]
    exact sample16To8_agrees (inbuf (2*i)) (inbuf (2*i+1)) (h i hi).1 (h i hi).2
  · exact sample8To16_iff

/-- Witness for C1_fast_vs_float_path on a concrete one-sample buffer. -/
theorem C1_fast_vs_float_path_witness :
    convert24To16 (fun _ => 0) 1 []
      = floatPath (fun _ _ _ _ => 0) (fun _ => []) (fun _ => 0)
          SampleFormat.int24 SampleFormat.int16 1 [] :=
  C1_fast_vs_float_path.1 (fun _ _ _ _ => 0) (fun _ => []) (fun _ => 0) 1 []
    (by intro i hi; exact ⟨by norm_num, by norm_num, by norm_num⟩)

/-- Counterexample to C1 as stated: on the one-sample Int8 buffer holding the
in-range byte 255 (sample value +127), the fast path convert8To16 produces
the bytes [255,127] (the value 0x7fff) while the float-intermediate path
produces [0,127] (the value 0x7f00), so the two are not byte-identical. -/
theorem C1_counterexample :
    convert8To16 (fun _ => 255) 1 [0, 0]
      ≠ floatPath (fun _ _ _ _ => 0) (fun _ => []) (fun _ => 255)
          SampleFormat.int8 SampleFormat.int16 1 [0, 0] := by
  have hR : fromFloat16 (toFloat8 255) = [0, 127] := by
    unfold fromFloat16
    rw [sat8to16 255 (by norm_num)]
    decide
  unfold convert8To16 floatPath
  rw [convertFromFloat_int16, convertToFloat_int8]
  intro h
  rw [show (List.range 1) = [0] from rfl] at h
  simp only [List.flatMap_cons, List.flatMap_nil, List.map_cons, List.map_nil,
    List.getD_cons_zero] at h
  rw [hR] at h
  have : fast8To16sample 255 = [255, 127] := by decide
  rw [this] at h
  simp at h

/-! ## AudioGraph constructor derivations (audgraph.cpp) -/

/-- Constructor clamp of frames_either_side:
`if (frames_either_side > vi.width / 4) frames_either_side = vi.width / 4;`. -/
def clampFES (w fes : ℕ) : ℕ := if fes > w / 4 then w / 4 else fes

/-- num_visible_audioframes = frames_either_side * 2 + 1 (after the clamp). -/
def numVisible (w fes : ℕ) : ℕ := 2 * clampFES w fes + 1

/-- pixels_per_audioframe = (vi.width / num_visible_audioframes) + 1. -/
def pixelsPerAudioframe (w fes : ℕ) : ℕ := w / numVisible w fes + 1

/-- The constructor loop `log_samples_per_pixel = 0; while (1 <<
log_samples_per_pixel < samples_per_frame / pixels_per_audioframe)
log_samples_per_pixel++;`, as a function of the loop target `t` and the
running value `l`. -/
def lsppLoop (t l : ℕ) : ℕ :=
  if 2 ^ l < t then lsppLoop t (l + 1) else l
termination_by t - 2 ^ l
decreasing_by
  have h2 : 2 ^ l < 2 ^ (l + 1) := Nat.pow_lt_pow_succ (by norm_num)
  omega

/-- log_samples_per_pixel in terms of samples_per_frame `S` and
pixels_per_audioframe `P` (the loop target is the C division `S / P`). -/
def logSamplesPerPixel (S P : ℕ) : ℕ := lsppLoop (S / P) 0

/-- log_mono_samples_per_pixel = log_samples_per_pixel + (AudioChannels() - 1). -/
def logMonoSamplesPerPixel (S P ch : ℕ) : ℕ := logSamplesPerPixel S P + (ch - 1)

/-- The constructor loop `num_audioframe_buffers = 1; while
(num_audioframe_buffers < num_visible_audioframes) num_audioframe_buffers
<<= 1;` (doubling written as addition). -/
def slotsLoop (nv ns : ℕ) (h : 0 < ns) : ℕ :=
  if hlt : ns < nv then slotsLoop nv (ns + ns) (by omega) else ns
termination_by nv - ns
decreasing_by omega

/-- num_audioframe_buffers for a given width and frames_either_side. -/
def numAudioframeBuffers (w fes : ℕ) : ℕ := slotsLoop (numVisible w fes) 1 (by norm_num)

/-- start_of_last_sample_range = samples_per_frame - (1 << log_samples_per_pixel).
The C value is a signed int; 2^log_samples_per_pixel ≤ samples_per_frame holds
whenever samples_per_frame ≥ 1 and pixels_per_audioframe ≥ 2 (lemma
two_pow_lspp_le below), so the ℕ subtraction agrees with the C one. -/
def startOfLastSampleRange (S P : ℕ) : ℕ := S - 2 ^ logSamplesPerPixel S P

/-- m_sample_ranges[x] as a byte offset into m_audio_buffer: the constructor
stores `m_audio_buffer + (x_pixel * start_of_last_sample_range /
(pixels_per_audioframe - 1)) * bytes_per_sample` (and the plain buffer start,
offset 0, for x_pixel = 0, which this formula also yields). -/
def sampleRangeOff (S P bps x : ℕ) : ℕ := x * startOfLastSampleRange S P / (P - 1) * bps

/-- m_audio_buffer_size = bytes_per_sample * samples_per_frame *
audio_channels_count (bytes_per_sample = vi.BytesPerAudioSample() already
includes the channel count; the constructor multiplies by the channel count
once more). -/
def audioBufferSize (bps S ch : ℕ) : ℕ := bps * S * ch

/-- The constructor guard `if ((int)m_audio_buffer_size <=
(pixels_per_audioframe * start_of_last_sample_range / (pixels_per_audioframe
- 1)) * bytes_per_sample) ThrowError("AudioGraph: invalid audio buffer
size");`: the proposition under which construction aborts. -/
def invalidBufSizeCheck (S P bps ch : ℕ) : Prop :=
  audioBufferSize bps S ch ≤ P * startOfLastSampleRange S P / (P - 1) * bps

theorem lsppLoop_ge (t l : ℕ) : t ≤ 2 ^ lsppLoop t l := by
  induction l using lsppLoop.induct t with
  | case1 x hlt ih =>
    rw [lsppLoop, if_pos hlt]
    exact ih
  | case2 x hlt =>
    rw [lsppLoop, if_neg hlt]
    omega

theorem lsppLoop_le (t l m : ℕ) (hm : l ≤ m) (ht : t ≤ 2 ^ m) : lsppLoop t l ≤ m := by
  induction l using lsppLoop.induct t with
  | case1 x hlt ih =>
    rw [lsppLoop, if_pos hlt]
    rcases Nat.eq_or_lt_of_le hm with h | h
    · subst h
      omega
    · exact ih h
  | case2 x hlt =>
    rw [lsppLoop, if_neg hlt]
    exact hm

theorem lsppLoop_min (t l k : ℕ) (hl : l ≤ k) (hk : k < lsppLoop t l) : 2 ^ k < t := by
  induction l using lsppLoop.induct t with
  | case1 x hlt ih =>
    rw [lsppLoop, if_pos hlt] at hk
    rcases Nat.eq_or_lt_of_le hl with h | h
    · subst h
      exact hlt
    · exact ih h hk
  | case2 x hlt =>
    rw [lsppLoop, if_neg hlt] at hk
    omega

theorem slotsLoop_eq_pow (nv j : ℕ) (h : 0 < 2 ^ j) :
    slotsLoop nv (2 ^ j) h = 2 ^ lsppLoop nv j := by
  induction j using lsppLoop.induct nv with
  | case1 x hlt ih =>
    rw [slotsLoop, lsppLoop, if_pos hlt, dif_pos hlt]
    rw [show slotsLoop nv (2 ^ x + 2 ^ x) (by omega) = slotsLoop nv (2 ^ (x+1)) (by positivity)
      from by congr 1; rw [pow_succ]; omega]
    exact ih _
  | case2 x hlt =>
    rw [slotsLoop, lsppLoop, if_neg hlt, dif_neg hlt]

/-- With samples_per_frame ≥ 1 and pixels_per_audioframe ≥ 2 the averaging
window never exceeds the frame: 2^log_samples_per_pixel ≤ samples_per_frame. -/
theorem two_pow_lspp_le (S P : ℕ) (hS : 1 ≤ S) (hP : 2 ≤ P) :
    2 ^ logSamplesPerPixel S P ≤ S := by
  unfold logSamplesPerPixel
  by_cases hsp : S / P ≤ 1
  · have h0 : lsppLoop (S / P) 0 = 0 := by
      rw [lsppLoop, if_neg (by omega)]
    rw [h0]
    omega
  · have hL1 : 1 ≤ lsppLoop (S / P) 0 := by
      by_contra h
      have h0 : lsppLoop (S / P) 0 = 0 := by omega
      have := lsppLoop_ge (S / P) 0
      rw [h0] at this
      omega
    have hmin : 2 ^ (lsppLoop (S / P) 0 - 1) < S / P :=
      lsppLoop_min (S / P) 0 _ (by omega) (by omega)
    have hdd : S / P ≤ S / 2 := Nat.div_le_div_left hP (by norm_num)
    have hpow : 2 ^ lsppLoop (S / P) 0 = 2 * 2 ^ (lsppLoop (S / P) 0 - 1) := by
      rw [← pow_succ']
      congr 1
      omega
    omega

/-- Claim C6: constructor arithmetic.  frames_either_side is clamped to
min(frames_either_side, width/4); with width ≥ 1 this makes
pixels_per_audioframe = floor(width / (2*fes'+1)) + 1 at least 2; and
num_audioframe_buffers is the smallest power of two ≥ 2*fes'+1.  In
particular width = 100 with frames_either_side = 0 gives
pixels_per_audioframe = 101 and a single cache slot. -/
theorem C6_constructor_derivation (w fes : ℕ) (hw : 1 ≤ w) :
    clampFES w fes = min fes (w / 4)
    ∧ 2 ≤ pixelsPerAudioframe w fes
    ∧ pixelsPerAudioframe w fes = w / (2 * min fes (w / 4) + 1) + 1
    ∧ (∃ k, numAudioframeBuffers w fes = 2 ^ k)
    ∧ numVisible w fes ≤ numAudioframeBuffers w fes
    ∧ (∀ k, numVisible w fes ≤ 2 ^ k → numAudioframeBuffers w fes ≤ 2 ^ k)
    ∧ pixelsPerAudioframe 100 0 = 101
    ∧ numAudioframeBuffers 100 0 = 1 := by
  have hclamp : clampFES w fes = min fes (w / 4) := by
    unfold clampFES
    rcases Nat.lt_or_ge (w / 4) fes with h | h
    · rw [if_pos h, min_eq_right (by omega)]
    · rw [if_neg (by omega), min_eq_left h]
  have hc4 : clampFES w fes ≤ w / 4 := by
    unfold clampFES
    split <;> omega
  have h44 : w / 4 * 4 ≤ w := Nat.div_mul_le_self w 4
  have hnvw : numVisible w fes ≤ w := by
    unfold numVisible
    omega
  have hppf : 2 ≤ pixelsPerAudioframe w fes := by
    unfold pixelsPerAudioframe
    have h1 : 1 ≤ w / numVisible w fes :=
      (Nat.one_le_div_iff (by unfold numVisible; omega)).mpr hnvw
    omega
  have hpow : numAudioframeBuffers w fes = 2 ^ lsppLoop (numVisible w fes) 0 := by
    unfold numAudioframeBuffers
    exact slotsLoop_eq_pow (numVisible w fes) 0 (by norm_num)
  refine ⟨hclamp, hppf, ?_, ⟨_, hpow⟩, ?_, ?_, by decide, ?_⟩
  · unfold pixelsPerAudioframe numVisible
    rw [hclamp]
  · rw [hpow]
    exact lsppLoop_ge _ 0
  · intro k hk
    rw [hpow]
    exact Nat.pow_le_pow_right (by norm_num) (lsppLoop_le _ 0 k (by omega) hk)
  · have h1 : numAudioframeBuffers 100 0 = slotsLoop 1 1 (by norm_num) := rfl
    rw [h1, slotsLoop]
    norm_num

/-- Witness for C6_constructor_derivation at the spec's concrete scenario. -/
theorem C6_constructor_derivation_witness :
    clampFES 100 0 = min 0 (100 / 4)
    ∧ 2 ≤ pixelsPerAudioframe 100 0
    ∧ pixelsPerAudioframe 100 0 = 101
    ∧ numAudioframeBuffers 100 0 = 1 :=
  ⟨(C6_constructor_derivation 100 0 (by norm_num)).1,
   (C6_constructor_derivation 100 0 (by norm_num)).2.1,
   (C6_constructor_derivation 100 0 (by norm_num)).2.2.2.2.2.2.1,
   (C6_constructor_derivation 100 0 (by norm_num)).2.2.2.2.2.2.2⟩

/-! ## Claim C9: audio-buffer read bounds -/

/-- Claim C9 (amended): with samples_per_frame ≥ 1, pixels_per_audioframe ≥ 2,
one or two channels and one or two bytes per channel sample (the formats the
filter feeds to the fill loops), every byte offset read by FillAudioFrame8 /
FillAudioFrame16 stays strictly inside m_audio_buffer: the window of
bcs * 2^log_mono_samples_per_pixel bytes starting at m_sample_ranges[x] ends
at or before m_audio_buffer_size for every pixel x.  The second half of the
original claim is false: the constructor's 'invalid audio buffer size' branch
is reachable (see the counterexample), even though the reads it guards
against would still have been in bounds. -/
theorem C9_reads_in_bounds (S P ch bcs : ℕ) (hS : 1 ≤ S) (hP : 2 ≤ P)
    (hch : 1 ≤ ch) (hch2 : ch ≤ 2) (hbcs : bcs = 1 ∨ bcs = 2) (x : ℕ) (hx : x < P) :
    sampleRangeOff S P (bcs * ch) x + bcs * 2 ^ logMonoSamplesPerPixel S P ch
      ≤ audioBufferSize (bcs * ch) S ch := by
  have h2L : 2 ^ logSamplesPerPixel S P ≤ S := two_pow_lspp_le S P hS hP
  have hoff : sampleRangeOff S P (bcs * ch) x ≤ startOfLastSampleRange S P * (bcs * ch) := by
    unfold sampleRangeOff
    have h1 : x * startOfLastSampleRange S P / (P - 1)
        ≤ (P - 1) * startOfLastSampleRange S P / (P - 1) :=
      Nat.div_le_div_right (Nat.mul_le_mul_right _ (by omega))
    have h2 : (P - 1) * startOfLastSampleRange S P / (P - 1) = startOfLastSampleRange S P :=
      Nat.mul_div_cancel_left _ (by omega)
    exact Nat.mul_le_mul_right _ (by omega)
  refine le_trans (Nat.add_le_add_right hoff _) ?_
  unfold startOfLastSampleRange audioBufferSize logMonoSamplesPerPixel
  rcases hch.lt_or_eq with h2ch | h1ch
  · have hch2' : ch = 2 := by omega
    subst hch2'
    have hpows : 2 ^ (logSamplesPerPixel S P + (2 - 1)) = 2 * 2 ^ logSamplesPerPixel S P := by
      rw [pow_succ]
      ring
    rw [hpows]
    rcases hbcs with h | h <;> (subst h; omega)
  · have hch1 : ch = 1 := h1ch.symm
    subst hch1
    have hpows : 2 ^ (logSamplesPerPixel S P + (1 - 1)) = 2 ^ logSamplesPerPixel S P := by
      norm_num
    rw [hpows]
    rcases hbcs with h | h <;> (subst h; omega)

/-- Witness for C9_reads_in_bounds: a 16-bit mono frame of 4 samples with 2
pixels per audioframe, at pixel 1. -/
theorem C9_reads_in_bounds_witness :
    sampleRangeOff 4 2 (2 * 1) 1 + 2 * 2 ^ logMonoSamplesPerPixel 4 2 1
      ≤ audioBufferSize (2 * 1) 4 1 :=
  C9_reads_in_bounds 4 2 1 2 (by norm_num) (by norm_num) (by norm_num) (by norm_num)
    (Or.inr rfl) 1 (by norm_num)

/-- Counterexample to C9 as stated: the 'invalid audio buffer size' error
branch is reachable from constructor-established state.  A 16-bit mono clip
with samples_per_frame = 4 and pixels_per_audioframe = 2 (which arises, for
example, from width 5 with frames_either_side 1) satisfies the guard
condition, so construction aborts even though the claim calls this branch
unreachable. -/
theorem C9_counterexample :
    pixelsPerAudioframe 5 1 = 2 ∧ invalidBufSizeCheck 4 2 2 1 := by
  constructor
  · decide
  · unfold invalidBufSizeCheck audioBufferSize startOfLastSampleRange logSamplesPerPixel
    have hl : lsppLoop (4 / 2) 0 = 1 := by
      rw [lsppLoop, if_pos (by norm_num), lsppLoop, if_neg (by norm_num)]
    rw [hl]
    norm_num

/-! ## AudioGraph fill loops and audioframe cache (audgraph.cpp)

`AGConfig` packages the AudioGraph members fixed at construction that the
fill loops and the cache read: vi.height, pixels_per_audioframe,
log_mono_samples_per_pixel, the m_sample_ranges table (as byte offsets),
graph_scale, num_audioframe_buffers, m_audio_buffer_size, the sample type
(true for SAMPLE_INT16, false for SAMPLE_INT8), and the upstream clip's
`child->GetAudio` for one frame: `audio f` is the raw byte buffer for frame
f, or `none` when the upstream call throws AvisynthError.  The upstream
source is a fixed function of the frame, matching the host's deterministic
per-frame audio. -/

structure AGConfig where
  height : ℕ
  ppf : ℕ
  logMono : ℕ
  ranges : ℕ → ℕ
  scale : ℤ
  numSlots : ℕ
  bufSize : ℕ
  fmt16 : Bool
  audio : ℤ → Option (List ℕ)

/-- The Clamp template of audgraph.cpp:
`if (x < a) return a; else if (x > b) return b; return x;`. -/
def Clamp (x a b : ℤ) : ℤ := if x < a then a else if x > b then b else x

/-- The inner loop of FillAudioFrame8: `while (num_samples--) { y_pixel +=
*(BYTE*)src - 128; src++; }` starting at byte offset `off`. -/
def sumSamples8 (raw : List ℕ) (off : ℕ) : ℕ → ℤ
  | 0 => 0
  | n + 1 => ((raw.getD off 0 : ℤ) - 128) + sumSamples8 raw (off + 1) n

/-- A `*(short*)src` read of two little-endian buffer bytes. -/
def readShort (raw : List ℕ) (off : ℕ) : ℤ :=
  signed16 (raw.getD off 0 + 256 * raw.getD (off + 1) 0)

/-- The inner loop of FillAudioFrame16: `while (num_samples--) { y_pixel +=
*(short*)src; src += 2; }`. -/
def sumSamples16 (raw : List ℕ) (off : ℕ) : ℕ → ℤ
  | 0 => 0
  | n + 1 => readShort raw off + sumSamples16 raw (off + 2) n

/-- One pixel of FillAudioFrame8: sum 2^log_mono_samples_per_pixel biased
bytes, `y_pixel >>= log_mono_samples_per_pixel` (arithmetic shift), `y_pixel =
Clamp((y_pixel * vi.height / 256) * graph_scale, -height2, height2)`, store
`(WORD)(height2 + y_pixel)`.  The C int arithmetic stays well inside 32 bits
for any real clip (the sum magnitude is at most 128 * 2^logMono); the store
into the 16-bit WORD is the `% 65536`. -/
def fillPixel8 (cfg : AGConfig) (raw : List ℕ) (x : ℕ) : ℤ :=
  (((cfg.height / 2 : ℕ) : ℤ)
    + Clamp (Int.tdiv (Int.shiftRight (sumSamples8 raw (cfg.ranges x) (2 ^ cfg.logMono))
          cfg.logMono * (cfg.height : ℤ)) 256 * cfg.scale)
        (-((cfg.height / 2 : ℕ) : ℤ)) ((cfg.height / 2 : ℕ) : ℤ)) % 65536

/-- One pixel of FillAudioFrame16; as fillPixel8 but summing signed shorts
and dividing by 65536. -/
def fillPixel16 (cfg : AGConfig) (raw : List ℕ) (x : ℕ) : ℤ :=
  (((cfg.height / 2 : ℕ) : ℤ)
    + Clamp (Int.tdiv (Int.shiftRight (sumSamples16 raw (cfg.ranges x) (2 ^ cfg.logMono))
          cfg.logMono * (cfg.height : ℤ)) 65536 * cfg.scale)
        (-((cfg.height / 2 : ℕ) : ℤ)) ((cfg.height / 2 : ℕ) : ℤ)) % 65536

/-- AudioGraph::FillAudioFrame8: one Y value per pixel column.  The guard
`x_pixel >= m_sample_ranges_size` never fires because the table has exactly
pixels_per_audioframe entries. -/
def FillAudioFrame8 (cfg : AGConfig) (raw : List ℕ) : List ℤ :=
  (List.range cfg.ppf).map (fillPixel8 cfg raw)

/-- AudioGraph::FillAudioFrame16. -/
def FillAudioFrame16 (cfg : AGConfig) (raw : List ℕ) : List ℤ :=
  (List.range cfg.ppf).map (fillPixel16 cfg raw)

/-- The dispatch in GetAudioFrame: `if (vi.sample_type == SAMPLE_INT16)
FillAudioFrame16(...); else if (vi.sample_type == SAMPLE_INT8)
FillAudioFrame8(...);`. -/
def fillFrame (cfg : AGConfig) (raw : List ℕ) : List ℤ :=
  if cfg.fmt16 then FillAudioFrame16 cfg raw else FillAudioFrame8 cfg raw

/-- The mutable cache state: m_cache_lookup (tag per slot), the audioframe
buffer contents per slot, and a count of upstream `child->GetAudio` calls
(not a C variable; it witnesses how many reads a call sequence performs). -/
structure CacheState where
  lookup : ℕ → ℤ
  cols : ℕ → List ℤ
  reads : ℕ

/-- The constructor's "empty" tag: every slot starts at
`-num_audioframe_buffers`. -/
def initTag (cfg : AGConfig) : ℤ := -(cfg.numSlots : ℤ)

/-- The state right after construction; `garbage` is the uninitialised
contents of the freshly allocated audioframe buffers. -/
def initState (cfg : AGConfig) (garbage : ℕ → List ℤ) : CacheState :=
  { lookup := fun _ => initTag cfg, cols := garbage, reads := 0 }

/-- `audioframe_index = frame & (num_audioframe_buffers - 1)` (two's
complement AND, nonnegative because the mask is nonnegative). -/
def slotOf (cfg : AGConfig) (f : ℤ) : ℕ := (Int.land f ((cfg.numSlots : ℤ) - 1)).toNat

/-- The silence substituted on upstream failure:
`memset(m_audio_buffer, 0, m_audio_buffer_size)`. -/
def silenceBuffer (cfg : AGConfig) : List ℕ := List.replicate cfg.bufSize 0

/-- The audioframe GetAudioFrame computes for frame f on a cache miss: fill
from the upstream bytes, or from the zeroed buffer when the upstream request
throws. -/
def computeCol (cfg : AGConfig) (f : ℤ) : List ℤ :=
  fillFrame cfg ((cfg.audio f).getD (silenceBuffer cfg))

/-- AudioGraph::GetAudioFrame: hit when `m_cache_lookup[audioframe_index] ==
frame`; otherwise read the raw audio (one upstream GetAudio call, with
silence substitution on failure), fill the slot's buffer, update the tag.
Returns the pointed-to column together with the new state.  The two
index-guard ThrowError branches cannot fire (slot < num_slots =
m_cache_lookup_size and slot * ppf < m_audioframe_buffers_size) and are not
modelled; the buffer-size/sample-type guards are configuration checks
independent of the cache logic. -/
def GetAudioFrame (cfg : AGConfig) (st : CacheState) (f : ℤ) : List ℤ × CacheState :=
  if st.lookup (slotOf cfg f) = f then (st.cols (slotOf cfg f), st)
  else
    (computeCol cfg f,
      { lookup := fun s => if s = slotOf cfg f then f else st.lookup s,
        cols := fun s => if s = slotOf cfg f then computeCol cfg f else st.cols s,
        reads := st.reads + 1 })

/-- A sequence of GetAudioFrame calls, threading the cache state. -/
def runCalls (cfg : AGConfig) (st : CacheState) (calls : List ℤ) : CacheState :=
  calls.foldl (fun s f => (GetAudioFrame cfg s f).2) st

/-- The cache invariant: every slot whose tag is not the initial sentinel
holds exactly the column computed for the tagged frame. -/
def CacheInv (cfg : AGConfig) (st : CacheState) : Prop :=
  ∀ s : ℕ, st.lookup s ≠ initTag cfg → st.cols s = computeCol cfg (st.lookup s)

theorem cacheInv_init (cfg : AGConfig) (garbage : ℕ → List ℤ) :
    CacheInv cfg (initState cfg garbage) := by
  intro s hs
  exact absurd rfl hs

theorem cacheInv_step (cfg : AGConfig) (st : CacheState) (f : ℤ) (h : CacheInv cfg st) :
    CacheInv cfg (GetAudioFrame cfg st f).2 := by
  unfold GetAudioFrame
  split
  · exact h
  · intro s hs
    simp only at hs ⊢
    by_cases hslot : s = slotOf cfg f
    · rw [if_pos hslot] at hs ⊢
      rw [if_pos hslot]
    · rw [if_neg hslot] at hs ⊢
      rw [if_neg hslot]
      exact h s hs

theorem cacheInv_run (cfg : AGConfig) (st : CacheState) (calls : List ℤ)
    (h : CacheInv cfg st) : CacheInv cfg (runCalls cfg st calls) := by
  induction calls generalizing st with
  | nil => exact h
  | cons c cs ih =>
    exact ih _ (cacheInv_step cfg st c h)

theorem getAudioFrame_correct (cfg : AGConfig) (st : CacheState) (f : ℤ)
    (h : CacheInv cfg st) (hf : f ≠ initTag cfg) :
    (GetAudioFrame cfg st f).1 = computeCol cfg f := by
  unfold GetAudioFrame
  split
  · rename_i hhit
    have := h (slotOf cfg f) (by rw [hhit]; exact hf)
    rw [this, hhit]
  · rfl

theorem getAudioFrame_reads (cfg : AGConfig) (st : CacheState) (f : ℤ) :
    (GetAudioFrame cfg st f).2.reads
      = st.reads + (if st.lookup (slotOf cfg f) = f then 0 else 1) := by
  unfold GetAudioFrame
  split
  · simp
  · rfl

theorem Clamp_mem (x a b : ℤ) (h : a ≤ b) : a ≤ Clamp x a b ∧ Clamp x a b ≤ b := by
  unfold Clamp
  split_ifs <;> omega

theorem store_bounds (x h2 : ℤ) (hh : 0 ≤ h2) :
    0 ≤ (h2 + Clamp x (-h2) h2) % 65536 ∧ (h2 + Clamp x (-h2) h2) % 65536 ≤ 2 * h2 := by
  have hc := Clamp_mem x (-h2) h2 (by omega)
  omega

theorem store_eq (x h2 : ℤ) (hh : 0 ≤ h2) (hlt : 2 * h2 ≤ 65535) :
    (h2 + Clamp x (-h2) h2) % 65536 = h2 + Clamp x (-h2) h2 := by
  have hc := Clamp_mem x (-h2) h2 (by omega)
  omega

theorem fillPixel8_bounds (cfg : AGConfig) (raw : List ℕ) (x : ℕ) :
    0 ≤ fillPixel8 cfg raw x ∧ fillPixel8 cfg raw x ≤ 2 * ((cfg.height / 2 : ℕ) : ℤ) :=
  store_bounds _ _ (by positivity)

theorem fillPixel16_bounds (cfg : AGConfig) (raw : List ℕ) (x : ℕ) :
    0 ≤ fillPixel16 cfg raw x ∧ fillPixel16 cfg raw x ≤ 2 * ((cfg.height / 2 : ℕ) : ℤ) :=
  store_bounds _ _ (by positivity)

theorem fillFrame_bounds (cfg : AGConfig) (raw : List ℕ) :
    ∀ v ∈ fillFrame cfg raw, 0 ≤ v ∧ v ≤ 2 * ((cfg.height / 2 : ℕ) : ℤ) := by
  intro v hv
  unfold fillFrame FillAudioFrame8 FillAudioFrame16 at hv
  split at hv <;> rw [List.mem_map] at hv
  · obtain ⟨x, hx, rfl⟩ := hv
    exact fillPixel16_bounds cfg raw x
  · obtain ⟨x, hx, rfl⟩ := hv
    exact fillPixel8_bounds cfg raw x

/-! ## Claim C10: every stored Y-coordinate is within the frame -/

/-- Claim C10: every Y value a fill produces lies in [0, 2*(height/2)], and
hence so does every entry of every column GetAudioFrame returns after any
sequence of calls from the freshly constructed cache (for any requested frame
other than the sentinel tag, which no renderer request can equal since drawn
frames satisfy frame ≥ -frames_either_side > -num_audioframe_buffers). -/
theorem C10_y_coordinate_invariant :
    (∀ (cfg : AGConfig) (raw : List ℕ), ∀ v ∈ fillFrame cfg raw,
        0 ≤ v ∧ v ≤ 2 * ((cfg.height / 2 : ℕ) : ℤ))
    ∧ (∀ (cfg : AGConfig) (garbage : ℕ → List ℤ) (calls : List ℤ) (f : ℤ),
        f ≠ initTag cfg →
        ∀ v ∈ (GetAudioFrame cfg (runCalls cfg (initState cfg garbage) calls) f).1,
          0 ≤ v ∧ v ≤ 2 * ((cfg.height / 2 : ℕ) : ℤ)) := by
  constructor
  · exact fillFrame_bounds
  · intro cfg garbage calls f hf v hv
    rw [getAudioFrame_correct _ _ _ (cacheInv_run _ _ _ (cacheInv_init _ _)) hf] at hv
    unfold computeCol at hv
    exact fillFrame_bounds cfg _ v hv

/-! ## Claim C3: cache correctness -/

/-- The spec's end-to-end scenario: a 16-bit mono clip, width 100,
frames_either_side 0, so pixels_per_audioframe = 101 and a single cache slot
(C6_constructor_derivation proves those two values from the constructor
arithmetic).  samples_per_frame is 102 with 2 bytes each; the upstream
source always succeeds and returns silence.  The sample-range table contents
are irrelevant to the read count (getD over the zero buffer yields 0 at any
offset), so a simple stride-2 table keeps the term kernel-computable. -/
def cfgSpec16 : AGConfig :=
  { height := 2, ppf := 101, logMono := 0, ranges := fun x => 2 * x, scale := 1,
    numSlots := 1, bufSize := 204, fmt16 := true,
    audio := fun _ => some (List.replicate 204 0) }

/-- Claim C3: a GetAudioFrame call always returns exactly the column computed
for its frame — the cached copy on a tag hit (the tag is only ever f when
slot f was last filled for f, by the cache invariant), a fresh recomputation
otherwise; a call performs one upstream read on a tag mismatch and none on a
hit; and in the spec scenario two consecutive calls for frame 5 from the
fresh cache perform exactly one upstream read. -/
theorem C3_cache_correctness :
    (∀ (cfg : AGConfig) (garbage : ℕ → List ℤ) (calls : List ℤ) (f : ℤ),
        f ≠ initTag cfg →
        (GetAudioFrame cfg (runCalls cfg (initState cfg garbage) calls) f).1
          = computeCol cfg f)
    ∧ (∀ (cfg : AGConfig) (st : CacheState) (f : ℤ),
        (GetAudioFrame cfg st f).2.reads
          = st.reads + (if st.lookup (slotOf cfg f) = f then 0 else 1))
    ∧ (runCalls cfgSpec16 (initState cfgSpec16 (fun _ => [])) [5, 5]).reads = 1 := by
  refine ⟨?_, getAudioFrame_reads, ?_⟩
  · intro cfg garbage calls f hf
    exact getAudioFrame_correct _ _ _ (cacheInv_run _ _ _ (cacheInv_init _ _)) hf
  · decide

/-- Witness for C3_cache_correctness: frame 5 on the fresh scenario cache. -/
theorem C3_cache_correctness_witness :
    (GetAudioFrame cfgSpec16 (runCalls cfgSpec16 (initState cfgSpec16 (fun _ => [])) []) 5).1
      = computeCol cfgSpec16 5 :=
  C3_cache_correctness.1 cfgSpec16 (fun _ => []) [] 5 (by decide)

/-- Witness for C10_y_coordinate_invariant: the first entry of the column the
scenario cache returns for frame 5. -/
theorem C10_y_coordinate_invariant_witness :
    0 ≤ (1 : ℤ) ∧ (1 : ℤ) ≤ 2 * ((cfgSpec16.height / 2 : ℕ) : ℤ) :=
  C10_y_coordinate_invariant.2 cfgSpec16 (fun _ => []) [] 5 (by decide) 1 (by decide)

/-! ## Claim C5: the fill formula -/

theorem sumSamples8_eq_sum (raw : List ℕ) :
    ∀ (n off : ℕ), sumSamples8 raw off n
      = ((List.range n).map (fun i => ((raw.getD (off + i) 0 : ℤ) - 128))).sum := by
  intro n
  induction n with
  | zero => intro off; rfl
  | succ k ih =>
    intro off
    rw [sumSamples8, ih (off + 1), List.range_succ_eq_map]
    simp only [List.map_cons, List.map_map, List.sum_cons, Function.comp_def,
      Nat.succ_eq_add_one]
    have he : ∀ i : ℕ, off + 1 + i = off + (i + 1) := by intro i; omega
    simp only [he, add_zero]

theorem sumSamples16_eq_sum (raw : List ℕ) :
    ∀ (n off : ℕ), sumSamples16 raw off n
      = ((List.range n).map (fun i => readShort raw (off + 2 * i))).sum := by
  intro n
  induction n with
  | zero => intro off; rfl
  | succ k ih =>
    intro off
    rw [sumSamples16, ih (off + 2), List.range_succ_eq_map]
    simp only [List.map_cons, List.map_map, List.sum_cons, Function.comp_def,
      Nat.succ_eq_add_one]
    have he : ∀ i : ℕ, off + 2 + 2 * i = off + 2 * (i + 1) := by intro i; omega
    simp only [he, mul_zero, add_zero]

theorem fillPixel8_formula (cfg : AGConfig) (raw : List ℕ) (x : ℕ)
    (hh : cfg.height ≤ 65535) :
    fillPixel8 cfg raw x
      = ((cfg.height / 2 : ℕ) : ℤ)
        + Clamp (Int.tdiv (Int.shiftRight (((List.range (2 ^ cfg.logMono)).map
              (fun i => ((raw.getD (cfg.ranges x + i) 0 : ℤ) - 128))).sum) cfg.logMono
            * (cfg.height : ℤ)) 256 * cfg.scale)
          (-((cfg.height / 2 : ℕ) : ℤ)) ((cfg.height / 2 : ℕ) : ℤ) := by
  unfold fillPixel8
  rw [sumSamples8_eq_sum]
  exact store_eq _ ((cfg.height / 2 : ℕ) : ℤ) (by positivity) (by omega)

theorem fillPixel16_formula (cfg : AGConfig) (raw : List ℕ) (x : ℕ)
    (hh : cfg.height ≤ 65535) :
    fillPixel16 cfg raw x
      = ((cfg.height / 2 : ℕ) : ℤ)
        + Clamp (Int.tdiv (Int.shiftRight (((List.range (2 ^ cfg.logMono)).map
              (fun i => readShort raw (cfg.ranges x + 2 * i))).sum) cfg.logMono
            * (cfg.height : ℤ)) 65536 * cfg.scale)
          (-((cfg.height / 2 : ℕ) : ℤ)) ((cfg.height / 2 : ℕ) : ℤ) := by
  unfold fillPixel16
  rw [sumSamples16_eq_sum]
  exact store_eq _ ((cfg.height / 2 : ℕ) : ℤ) (by positivity) (by omega)

/-- Claim C5: for every pixel x below pixels_per_audioframe (and any frame
height that fits the 16-bit store), the stored Y-coordinate equals height/2 +
clamp(d * height / full_scale * vertical_scale, -height/2, height/2), where d
is the sum of 2^log_mono_samples_per_pixel consecutive raw samples starting
at the sample-range offset for x (bytes debiased by 128 for 8-bit sources,
little-endian signed shorts for 16-bit sources) arithmetically right-shifted
by log_mono_samples_per_pixel, the division by full_scale (256 for 8-bit,
65536 for 16-bit) is the C truncating division, and height/2 is the C
height>>1. -/
theorem C5_fill_formula :
    (∀ (cfg : AGConfig) (raw : List ℕ) (x : ℕ), x < cfg.ppf → cfg.height ≤ 65535 →
      (FillAudioFrame8 cfg raw).getD x 0
        = ((cfg.height / 2 : ℕ) : ℤ)
          + Clamp (Int.tdiv (Int.shiftRight (((List.range (2 ^ cfg.logMono)).map
                (fun i => ((raw.getD (cfg.ranges x + i) 0 : ℤ) - 128))).sum) cfg.logMono
              * (cfg.height : ℤ)) 256 * cfg.scale)
            (-((cfg.height / 2 : ℕ) : ℤ)) ((cfg.height / 2 : ℕ) : ℤ))
    ∧ (∀ (cfg : AGConfig) (raw : List ℕ) (x : ℕ), x < cfg.ppf → cfg.height ≤ 65535 →
      (FillAudioFrame16 cfg raw).getD x 0
        = ((cfg.height / 2 : ℕ) : ℤ)
          + Clamp (Int.tdiv (Int.shiftRight (((List.range (2 ^ cfg.logMono)).map
                (fun i => readShort raw (cfg.ranges x + 2 * i))).sum) cfg.logMono
              * (cfg.height : ℤ)) 65536 * cfg.scale)
            (-((cfg.height / 2 : ℕ) : ℤ)) ((cfg.height / 2 : ℕ) : ℤ)) := by
  constructor
  · intro cfg raw x hx hh
    unfold FillAudioFrame8
    rw [getD_range_map _ _ _ hx]
    exact fillPixel8_formula cfg raw x hh
  · intro cfg raw x hx hh
    unfold FillAudioFrame16
    rw [getD_range_map _ _ _ hx]
    exact fillPixel16_formula cfg raw x hh

/-- Witness for C5_fill_formula: pixel 0 of the scenario configuration on a
concrete raw buffer. -/
theorem C5_fill_formula_witness :
    (FillAudioFrame16 cfgSpec16 (List.replicate 204 0)).getD 0 0
      = ((cfgSpec16.height / 2 : ℕ) : ℤ)
        + Clamp (Int.tdiv (Int.shiftRight (((List.range (2 ^ cfgSpec16.logMono)).map
              (fun i => readShort (List.replicate 204 0) (cfgSpec16.ranges 0 + 2 * i))).sum)
              cfgSpec16.logMono
            * (cfgSpec16.height : ℤ)) 65536 * cfgSpec16.scale)
          (-((cfgSpec16.height / 2 : ℕ) : ℤ)) ((cfgSpec16.height / 2 : ℕ) : ℤ) :=
  C5_fill_formula.2 cfgSpec16 (List.replicate 204 0) 0 (by norm_num [cfgSpec16]) (by norm_num [cfgSpec16])

/-! ## Claim C2: silence substitution on upstream failure -/

theorem getD_replicate_zero (m off : ℕ) : (List.replicate m 0).getD off 0 = 0 := by
  rcases Nat.lt_or_ge off m with h | h
  · rw [List.getD_eq_getElem _ _ (by simpa using h)]
    simp
  · rw [List.getD_eq_default _ _ (by simpa using h)]

theorem sumSamples8_replicate_zero (m : ℕ) : ∀ (n off : ℕ),
    sumSamples8 (List.replicate m 0) off n = -128 * n := by
  intro n
  induction n with
  | zero => intro off; simp [sumSamples8]
  | succ k ih =>
    intro off
    rw [sumSamples8, ih (off + 1), getD_replicate_zero]
    push_cast
    ring

theorem sumSamples16_replicate_zero (m : ℕ) : ∀ (n off : ℕ),
    sumSamples16 (List.replicate m 0) off n = 0 := by
  intro n
  induction n with
  | zero => intro off; rfl
  | succ k ih =>
    intro off
    rw [sumSamples16, ih (off + 2), readShort, getD_replicate_zero, getD_replicate_zero]
    simp [signed16]

theorem shift_zero (lm : ℕ) : Int.shiftRight 0 lm = 0 := by
  rw [intShiftRight_eq_ediv_pow]
  simp

theorem shift_neg128 (lm : ℕ) : Int.shiftRight (-128 * ((2 ^ lm : ℕ) : ℤ)) lm = -128 := by
  rw [intShiftRight_eq_ediv_pow]
  exact Int.mul_ediv_cancel _ (by positivity)

theorem clamp_zero (h2 : ℤ) (hh : 0 ≤ h2) : Clamp 0 (-h2) h2 = 0 := by
  unfold Clamp
  rw [if_neg (by omega), if_neg (by omega)]

theorem tdiv_neg128_mul (h : ℕ) : Int.tdiv (-128 * (h : ℤ)) 256 = -(((h : ℤ)) / 2) := by
  have e1 : (-128 : ℤ) * (h : ℤ) = -(128 * h) := by ring
  rw [e1, Int.neg_tdiv]
  congr 1
  rw [Int.tdiv_eq_ediv (by positivity) (by norm_num)]
  omega

theorem clamp_neg_h2_scale (h2 s : ℤ) (hh : 0 ≤ h2) (hs : 1 ≤ s) :
    Clamp (-h2 * s) (-h2) h2 = -h2 := by
  have hle : -h2 * s ≤ -h2 := by nlinarith
  unfold Clamp
  split_ifs with h1 h2' <;> omega

theorem fillPixel16_silence (cfg : AGConfig) (x : ℕ) (hh : cfg.height ≤ 65535) :
    fillPixel16 cfg (silenceBuffer cfg) x = ((cfg.height / 2 : ℕ) : ℤ) := by
  unfold fillPixel16 silenceBuffer
  rw [sumSamples16_replicate_zero, shift_zero, zero_mul, Int.zero_tdiv, zero_mul,
    clamp_zero _ (by positivity)]
  omega

theorem fillPixel8_silence (cfg : AGConfig) (x : ℕ) (hs : 1 ≤ cfg.scale) :
    fillPixel8 cfg (silenceBuffer cfg) x = 0 := by
  unfold fillPixel8 silenceBuffer
  rw [sumSamples8_replicate_zero, shift_neg128, tdiv_neg128_mul,
    show ((cfg.height : ℤ)) / 2 = ((cfg.height / 2 : ℕ) : ℤ) from by omega,
    clamp_neg_h2_scale _ _ (by positivity) hs]
  omega

/-- An 8-bit mono configuration whose upstream audio always fails: height 2,
one pixel per audioframe, one sample per pixel, scale 1. -/
def cfgSilent8 : AGConfig :=
  { height := 2, ppf := 1, logMono := 0, ranges := fun _ => 0, scale := 1,
    numSlots := 1, bufSize := 1, fmt16 := false, audio := fun _ => none }

/-- A 16-bit configuration whose upstream audio always fails. -/
def cfgSilent16 : AGConfig :=
  { height := 480, ppf := 2, logMono := 0, ranges := fun x => 2 * x, scale := 1,
    numSlots := 1, bufSize := 4, fmt16 := true, audio := fun _ => none }

/-- Claim C2 (amended): when the upstream audio request for frame f fails,
GetAudioFrame(f) substitutes the all-zero-byte buffer and returns a column
whose every Y-coordinate is height/2 — but only for 16-bit sources.  For
8-bit sources the zero bytes decode to the full negative deflection -128
(8-bit samples are stored biased by +128), so with any scale ≥ 1 every
Y-coordinate of the substituted column is 0 (the frame top), not height/2. -/
theorem C2_silence_substitution :
    (∀ (cfg : AGConfig) (garbage : ℕ → List ℤ) (calls : List ℤ) (f : ℤ),
        cfg.fmt16 = true → cfg.height ≤ 65535 → cfg.audio f = none → f ≠ initTag cfg →
        ∀ v ∈ (GetAudioFrame cfg (runCalls cfg (initState cfg garbage) calls) f).1,
          v = ((cfg.height / 2 : ℕ) : ℤ))
    ∧ (∀ (cfg : AGConfig) (garbage : ℕ → List ℤ) (calls : List ℤ) (f : ℤ),
        cfg.fmt16 = false → 1 ≤ cfg.scale → cfg.audio f = none → f ≠ initTag cfg →
        ∀ v ∈ (GetAudioFrame cfg (runCalls cfg (initState cfg garbage) calls) f).1,
          v = 0) := by
  constructor
  · intro cfg garbage calls f hf16 hh haud hf v hv
    rw [getAudioFrame_correct _ _ _ (cacheInv_run _ _ _ (cacheInv_init _ _)) hf] at hv
    unfold computeCol fillFrame at hv
    rw [haud] at hv
    simp only [Option.getD_none, hf16, if_true] at hv
    unfold FillAudioFrame16 at hv
    rw [List.mem_map] at hv
    obtain ⟨x, hx, rfl⟩ := hv
    exact fillPixel16_silence cfg x hh
  · intro cfg garbage calls f hf16 hs haud hf v hv
    rw [getAudioFrame_correct _ _ _ (cacheInv_run _ _ _ (cacheInv_init _ _)) hf] at hv
    unfold computeCol fillFrame at hv
    rw [haud] at hv
    simp only [Option.getD_none, hf16, if_false, Bool.false_eq_true] at hv
    unfold FillAudioFrame8 at hv
    rw [List.mem_map] at hv
    obtain ⟨x, hx, rfl⟩ := hv
    exact fillPixel8_silence cfg x hs

/-- Witness for C2_silence_substitution: the failing 16-bit configuration
returns the flat-center value 240 = 480/2. -/
theorem C2_silence_substitution_witness :
    (240 : ℤ) = ((cfgSilent16.height / 2 : ℕ) : ℤ) :=
  C2_silence_substitution.1 cfgSilent16 (fun _ => []) [] 0 rfl (by decide) rfl
    (by decide) 240 (by decide)

/-- Counterexample to C2 as stated: for the 8-bit configuration with height 2
and a failing upstream source, the returned column is [0], but height/2 = 1
— the flat line sits at the frame top, not at the vertical centre. -/
theorem C2_counterexample :
    (GetAudioFrame cfgSilent8 (initState cfgSilent8 (fun _ => [])) 0).1 = [0]
    ∧ ((0 : ℤ) ≠ ((cfgSilent8.height / 2 : ℕ) : ℤ)) := by
  constructor
  · decide
  · decide

/-! ## Claim C7: auto-scale prepass -/

/-- The inner loop of AudioGraph::GetGraphAutoScale: for each pixel x,
`y_pixel = abs(int(audioframe_buffer[x_pixel]) - height2); if
(max_graph_y_pixel < y_pixel) max_graph_y_pixel = y_pixel;`. -/
def autoScaleInner (cfg : AGConfig) (col : List ℤ) (acc : ℕ) : ℕ :=
  (List.range cfg.ppf).foldl
    (fun m x => max m ((col.getD x 0 - ((cfg.height / 2 : ℕ) : ℤ)).natAbs)) acc

/-- The outer loop of GetGraphAutoScale: walk every frame through
GetAudioFrame (populating the cache as a side effect) and track the maximum
absolute deflection. -/
def autoScalePrepass (cfg : AGConfig) (numFrames : ℕ) (st : CacheState) : ℕ × CacheState :=
  (List.range numFrames).foldl
    (fun acc fi => (autoScaleInner cfg (GetAudioFrame cfg acc.2 (fi : ℤ)).1 acc.1,
                    (GetAudioFrame cfg acc.2 (fi : ℤ)).2))
    (0, st)

/-- AudioGraph::GetGraphAutoScale.  The source computes `int result =
height2/max_graph_y_pixel; return !result ? 1 : result;` unconditionally;
the integer division by zero that occurs when max_graph_y_pixel is 0 is
surfaced here as `none`. -/
def GetGraphAutoScale (cfg : AGConfig) (numFrames : ℕ) (garbage : ℕ → List ℤ) : Option ℕ :=
  if (autoScalePrepass cfg numFrames (initState cfg garbage)).1 = 0 then none
  else some (if (cfg.height / 2) / (autoScalePrepass cfg numFrames (initState cfg garbage)).1 = 0
    then 1
    else (cfg.height / 2) / (autoScalePrepass cfg numFrames (initState cfg garbage)).1)

set_option maxRecDepth 4000 in
/-- Claim C7 is a code bug: the prepass divides height/2 by the maximum
absolute deflection without guarding against zero.  On an entirely silent
16-bit clip every column entry equals height/2, the maximum deflection is 0,
and `height2/max_graph_y_pixel` divides by zero (the `!result ? 1 : result`
guard only repairs a zero quotient, not a zero divisor) — here the `none`
outcome.  When the maximum deflection is nonzero the code does compute
max(1, (height/2)/max_deflection) as the claim states. -/
theorem C7_autoscale_divide_by_zero :
    GetGraphAutoScale cfgSpec16 1 (fun _ => []) = none
    ∧ (∀ (cfg : AGConfig) (numFrames : ℕ) (garbage : ℕ → List ℤ),
        (autoScalePrepass cfg numFrames (initState cfg garbage)).1 ≠ 0 →
        GetGraphAutoScale cfg numFrames garbage
          = some (max 1 ((cfg.height / 2)
              / (autoScalePrepass cfg numFrames (initState cfg garbage)).1))) := by
  constructor
  · decide
  · intro cfg numFrames garbage hne
    unfold GetGraphAutoScale
    rw [if_neg hne]
    congr 1
    split
    · rename_i hz
      rw [hz]
      decide
    · rename_i hz
      rw [Nat.max_eq_right (Nat.one_le_iff_ne_zero.mpr hz)]

/-- Witness for C7_autoscale_divide_by_zero: the failing-audio 8-bit clip has
maximum deflection 1, so the prepass returns a defined scale. -/
theorem C7_autoscale_divide_by_zero_witness :
    GetGraphAutoScale cfgSilent8 1 (fun _ => [])
      = some (max 1 (cfgSilent8.height / 2
          / (autoScalePrepass cfgSilent8 1 (initState cfgSilent8 (fun _ => []))).1)) :=
  C7_autoscale_divide_by_zero.2 cfgSilent8 1 (fun _ => []) (by decide)
